import Mathlib

/-!
Verification of the latent-diffusion U-net training script
(`scripts/train_unet.py`).  The Python program is shallowly embedded:
the IEEE-754 binary64 arithmetic used by the dataset split is modelled
exactly with dyadic rationals, the dataset slicing follows Python slice
semantics, and the training loop is modelled as a fold over epochs with
an explicit error monad for Python name errors.
-/

/-! ## IEEE-754 binary64 arithmetic, exact, via dyadic rationals -/

/-- Round `n / 2 ^ k` to the nearest integer, ties to even (used with `k ≥ 1`). -/
def rnEven (n k : ℕ) : ℕ :=
  let q := n / 2 ^ k
  let r := n % 2 ^ k
  let h := 2 ^ (k - 1)
  if h < r then q + 1 else if r < h then q else if q % 2 = 0 then q else q + 1

/-- How many bits of `n` lie above the 53rd, for `2 ^ 53 ≤ n < 2 ^ 65`,
which covers every inexact product appearing in the split computation. -/
def excessBits (n : ℕ) : ℕ :=
  if n < 2 ^ 54 then 1 else if n < 2 ^ 55 then 2 else if n < 2 ^ 56 then 3
  else if n < 2 ^ 57 then 4 else if n < 2 ^ 58 then 5 else if n < 2 ^ 59 then 6
  else if n < 2 ^ 60 then 7 else if n < 2 ^ 61 then 8 else if n < 2 ^ 62 then 9
  else if n < 2 ^ 63 then 10 else if n < 2 ^ 64 then 11 else 12

/-- Round the nonnegative dyadic rational `p.1 / 2 ^ p.2` to the nearest
IEEE-754 binary64 value (53 significant bits, round-to-nearest,
ties-to-even).  Exact for every value arising in the split computation:
all of them are normal, below `2 ^ 65`, and far from overflow. -/
def flDy (p : ℕ × ℕ) : ℕ × ℕ :=
  if p.1 < 2 ^ 53 then p
  else (rnEven p.1 (excessBits p.1), p.2 - excessBits p.1)

/-- Exact difference of two dyadic rationals (minuend not smaller; every
use here satisfies this).  IEEE subtraction is the rounding of this
exact difference. -/
def dySub (a b : ℕ × ℕ) : ℕ × ℕ :=
  if a.2 ≤ b.2 then (a.1 * 2 ^ (b.2 - a.2) - b.1, b.2)
  else (a.1 - b.1 * 2 ^ (a.2 - b.2), a.2)

/-- Rational value of a dyadic pair. -/
def dyQ (p : ℕ × ℕ) : ℚ := (p.1 : ℚ) / 2 ^ p.2

/-! ## Dataset split (lines 41-56 of `train_unet.py`) -/

/-- `train_split = 0.7` (line 49): the binary64 value of the literal `0.7`. -/
def train_split : ℕ × ℕ := (6305039478318694, 53)

/-- `val_split = 0.2` (line 50): the binary64 value of the literal `0.2`. -/
def val_split : ℕ × ℕ := (7205759403792794, 55)

/-- `test_split = 1 - train_split - val_split` (line 51), evaluated left to
right in binary64 arithmetic. -/
def test_split : ℕ × ℕ := flDy (dySub (flDy (dySub (1, 0) train_split)) val_split)

/-- The float `1 - test_split` appearing in the validation slice (line 55). -/
def one_minus_test_split : ℕ × ℕ := flDy (dySub (1, 0) test_split)

/-- `int(N * c)` for a nonnegative Python int `N` and binary64 `c`: the
product is rounded to binary64, then truncated toward zero. -/
def intMulFloor (N : ℕ) (c : ℕ × ℕ) : ℕ :=
  let p := flDy (N * c.1, c.2)
  p.1 >>> p.2

/-- The end index of the train slice: `int(N_data*train_split)` (line 54). -/
def aIdx (N : ℕ) : ℕ := intMulFloor N train_split

/-- The end index of the validation slice: `int(N_data*(1-test_split))+1` (line 55). -/
def bIdx (N : ℕ) : ℕ := intMulFloor N one_minus_test_split + 1

/-- The magnitude of the (negative) start index of the test slice:
`int(-N_data*test_split) = -(int(N_data*test_split))` (line 56),
since `int` truncates toward zero. -/
def kLen (N : ℕ) : ℕ := intMulFloor N test_split

/-- `train_datalist = geomodels_dataset[:int(N_data*train_split)]` (line 54). -/
def train_datalist (l : List α) : List α :=
  l.take (aIdx l.length)

/-- `val_datalist = geomodels_dataset[int(len(train_datalist)):int(N_data*(1-test_split))+1]`
(line 55), with Python slice semantics (`take` the end index, then `drop`
the start index). -/
def val_datalist (l : List α) : List α :=
  (l.take (bIdx l.length)).drop (train_datalist l).length

/-- `test_datalist = geomodels_dataset[int(-N_data*test_split):]` (line 56).
In Python a start index of `0` selects the whole list while a negative
one counts from the end (clamped at `0`, which `ℕ` subtraction gives). -/
def test_datalist (l : List α) : List α :=
  if kLen l.length = 0 then l else l.drop (l.length - kLen l.length)

/-- Is there a power of two between `a` and `b` (inclusive)?  Searching
exponents up to `12` suffices for every `b ≤ 9 * 400`. -/
def pow2Between (a b : ℕ) : Bool :=
  (List.range 13).any (fun j => a ≤ 2 ^ j && 2 ^ j ≤ b)

/-- The dataset sizes `N ≤ 4000` at which the index-arithmetic split of
lines 54-56 fails to partition the dataset: for `1 ≤ N ≤ 9` the test
slice start `int(-N*test_split)` truncates to `0`, so the test list is
the whole dataset; for a multiple of ten `N = 10*m` such that a power of
two lies in `[8*m, 9*m]`, the product `N*(1-test_split)` rounds up to
exactly `9*m`, so the validation slice (with its `+1`) reaches one
element into the test slice. -/
def splitBad (N : ℕ) : Bool :=
  (1 ≤ N && N ≤ 9) || (N % 10 == 0 && pow2Between (8 * (N / 10)) (9 * (N / 10)))

/-- The per-size facts about the three slice boundaries that decide the
split claim, checked for one dataset size `N`.  On sizes where the split
works, the validation slice ends exactly where the test slice starts and
the three sizes are within one element (train, test) or two
(validation) of the 70/20/10 proportions; on the bad sizes the recorded
failure shape is checked instead (test slice equal to the whole list for
`N ≤ 9`, a one-element overlap of validation and test at the bad
multiples of ten). -/
def c1Check (N : ℕ) : Bool :=
  if splitBad N then
    if N ≤ 9 then kLen N == 0
    else (1 ≤ kLen N) && ((kLen N ≤ N) && ((aIdx N ≤ N - kLen N) &&
      ((N - kLen N + 1 == bIdx N) && (bIdx N ≤ N))))
  else
    (N == 0) || ((1 ≤ kLen N) && ((kLen N ≤ N) && ((aIdx N ≤ bIdx N) && ((bIdx N == N - kLen N) &&
      ((10 * aIdx N ≤ 7 * N + 10) && ((7 * N ≤ 10 * aIdx N + 10) &&
      ((10 * (bIdx N - aIdx N) ≤ 2 * N + 20) && ((2 * N ≤ 10 * (bIdx N - aIdx N) + 20) &&
      ((10 * kLen N ≤ N + 10) && (N ≤ 10 * kLen N + 10))))))))))


/-! ## Training hyperparameters and checkpoint path (lines 52, 144-153, 183) -/

/-- `batch_size = 16` (line 52). -/
def batch_size : ℕ := 16

/-- `n_epochs = 200` (line 149). -/
def n_epochs : ℕ := 200

/-- `val_interval = 5` (line 150). -/
def val_interval : ℕ := 5

/-- `trained_unet_dir = './trained_unet/'` (line 144). -/
def trained_unet_dir : List Char := "./trained_unet/".data

/-- The checkpoint path built at line 183,
`f'{trained_unet_dir} + /unet_epoch_{epoch + 1}.pt'`: the f-string
interpolates the directory variable and the epoch number and keeps
everything else — including the stray " + /" — literally. -/
def savePath (epoch : ℕ) : List Char :=
  trained_unet_dir ++ (" + /unet_epoch_".data ++ (Nat.toDigits 10 (epoch + 1) ++ ".pt".data))

/-- The number of batches a MONAI `DataLoader` with the default
`drop_last=False` yields from a dataset of `n` samples (lines 69, 80, 92). -/
def numBatches (n : ℕ) : ℕ := (n + (batch_size - 1)) / batch_size

/-! ## The training loop (lines 149-214), as a state machine

The numeric work inside a step — encoding, latent sampling, noise,
the U-net forward pass, the loss value, and the Adam/GradScaler update —
is abstracted into an oracle `MLOps`, because it is stochastic GPU
arithmetic performed by the external framework.  Everything the script
itself does (loop structure, accumulator updates, the two periodic
branches, the Python name binding of the loop counters) is modelled
exactly; an unbound name raises in the `Except` monad. -/

/-- Oracle for the framework-side numerics: `trainLossVal e st` is the
`loss.item()` of training step `st` of epoch `e`, `valLossVal e vs` is
the loss of validation batch `vs` (1-based) of epoch `e`, and
`optStep` is the parameter/optimizer-state update performed by
`scaler.step(optimizer); scaler.update()` (lines 174-176). -/
structure MLOps (θ σ : Type) where
  trainLossVal : ℕ → ℕ → ℚ
  valLossVal : ℕ → ℕ → ℚ
  optStep : θ → σ → ℕ → ℕ → θ × σ

/-- The mutable state of the script during the loop: the two networks,
the optimizer state, the constant scale factor, the two loss-history
lists (lines 151-152), the checkpoints written so far (epoch, path,
weights), the printed validation lines (line 213), and the Python
bindings of the loop variables `step` and `val_step` (`none` = unbound). -/
structure LoopState (θ σ φ : Type) where
  unet : θ
  opt : σ
  vae : φ
  scaleF : ℝ
  epochLosses : List ℚ
  valLosses : List ℚ
  savedCkpts : List (ℕ × List Char × θ)
  console : List (ℕ × ℚ)
  stepVar : Option ℕ
  valStepVar : Option ℕ

/-- The state at line 155, before the first epoch. -/
def initState {θ σ φ : Type} (u : θ) (o : σ) (v : φ) (sf : ℝ) : LoopState θ σ φ :=
  ⟨u, o, v, sf, [], [], [], [], none, none⟩

/-- The batch loop of one epoch (lines 161-180): each step updates the
U-net and optimizer state through the oracle, rebinds `step`, and adds
`loss.item()` to the running `epoch_loss` (second component). -/
def trainPhase {θ σ φ : Type} (ops : MLOps θ σ) (epoch nB : ℕ) (s : LoopState θ σ φ) :
    LoopState θ σ φ × ℚ :=
  (List.range nB).foldl
    (fun p st =>
      ({ p.1 with
          unet := (ops.optStep p.1.unet p.1.opt epoch st).1
          opt := (ops.optStep p.1.unet p.1.opt epoch st).2
          stepVar := some st },
        p.2 + ops.trainLossVal epoch st))
    (s, 0)

/-- The validation batch loop (lines 189-210): accumulates `val_loss`
and rebinds `val_step`, which `enumerate(val_loader, start=1)` counts
from `1`; touches nothing else. -/
def valLoop {θ σ : Type} (ops : MLOps θ σ) (epoch nB : ℕ) (vs0 : Option ℕ) : ℚ × Option ℕ :=
  (List.range nB).foldl (fun p i => (p.1 + ops.valLossVal epoch (i + 1), some (i + 1))) (0, vs0)

/-- The checkpoint branch (lines 182-183): every 10 epochs, write the
current U-net weights to `savePath epoch`. -/
def saveStep {θ σ φ : Type} (epoch : ℕ) (s : LoopState θ σ φ) : LoopState θ σ φ :=
  if (epoch + 1) % 10 = 0 then
    { s with savedCkpts := s.savedCkpts ++ [(epoch, savePath epoch, s.unet)] }
  else s

/-- The validation branch (lines 185-213): every `val_interval` epochs,
run the validation batch loop, divide by the leaked loop counter
`val_step` (a `NameError` if it was never bound), record and print
the average.  Touches no network or optimizer state. -/
def valStep {θ σ φ : Type} (ops : MLOps θ σ) (nV epoch : ℕ) (s : LoopState θ σ φ) :
    Except String (LoopState θ σ φ) :=
  if (epoch + 1) % val_interval = 0 then
    match valLoop ops epoch nV s.valStepVar with
    | (_, none) => .error "NameError: val_step"
    | (vSum, some vs) =>
      .ok { s with
              valStepVar := some vs
              valLosses := s.valLosses ++ [vSum / (vs : ℚ)]
              console := s.console ++ [(epoch, vSum / (vs : ℚ))] }
  else .ok s

/-- One iteration of the epoch loop (lines 155-213): run the batch loop,
append `epoch_loss / (step + 1)` (a `NameError` if `step` was never
bound), then the checkpoint branch, then the validation branch. -/
def epochRun {θ σ φ : Type} (ops : MLOps θ σ) (nT nV : ℕ) (epoch : ℕ)
    (s : LoopState θ σ φ) : Except String (LoopState θ σ φ) :=
  let p := trainPhase ops epoch nT s
  match p.1.stepVar with
  | none => .error "NameError: step"
  | some st =>
    valStep ops nV epoch
      (saveStep epoch { p.1 with epochLosses := p.1.epochLosses ++ [p.2 / ((st : ℚ) + 1)] })

/-- Run the epochs `start, start+1, …, start+len-1` in order. -/
def runEpochs {θ σ φ : Type} (ops : MLOps θ σ) (nT nV : ℕ) (start len : ℕ)
    (s : LoopState θ σ φ) : Except String (LoopState θ σ φ) :=
  (List.range' start len).foldlM (fun st e => epochRun ops nT nV e st) s

/-- The whole loop of line 155: epochs `0, …, n_epochs - 1`. -/
def runAll {θ σ φ : Type} (ops : MLOps θ σ) (nT nV : ℕ) (s : LoopState θ σ φ) :
    Except String (LoopState θ σ φ) :=
  runEpochs ops nT nV 0 n_epochs s

/-- A trivial oracle over unit parameter types (all losses `0`, identity
update), used to instantiate the loop theorems at concrete inputs. -/
def opsUnit : MLOps Unit Unit :=
  { trainLossVal := fun _ _ => 0
    valLossVal := fun _ _ => 0
    optStep := fun _ _ _ _ => ((), ()) }

/-! ## Scale-factor calibration (lines 131-139) -/

/-- `torch.std` over the flattened tensor entries, with the default
unbiased (sample) estimator: the square root of the sum of squared
deviations from the mean divided by `n - 1`. -/
noncomputable def torch_std (xs : List ℝ) : ℝ :=
  Real.sqrt ((xs.map (fun x => (x - xs.sum / xs.length) ^ 2)).sum / ((xs.length : ℝ) - 1))

/-- `scale_factor = 1 / torch.std(z)` (line 136). -/
noncomputable def scale_factor (z : List ℝ) : ℝ := 1 / torch_std z

/-- The sample standard deviation, written from the specification text
("a batch of latents with sample standard deviation σ"): the refinement
target against which `scale_factor` is compared. -/
noncomputable def spec_sample_std (xs : List ℝ) : ℝ :=
  Real.sqrt ((xs.map (fun x => (x - xs.sum / xs.length) ^ 2)).sum / ((xs.length : ℝ) - 1))

/-- The whole program after model loading, parameterized by the epoch
shuffle of the train loader (`shuffleT`, line 69), the encoding of a
batch into flattened latent entries (`enc`, line 134), and the numeric
oracle.  It caps the directory listing at 4000 files (line 41), splits
it (lines 54-56), sizes the three loaders (lines 69, 80, 92) — the test
loader is built but never consumed — computes the scale factor from the
first shuffled train batch (lines 131-136), and runs the training loop. -/
noncomputable def program {α θ σ φ : Type} (shuffleT : List α → List α)
    (enc : List α → List ℝ) (ops : MLOps θ σ) (u : θ) (o : σ) (v : φ)
    (listdir : List α) : Except String (LoopState θ σ φ) :=
  let dataset := listdir.take 4000
  let train := train_datalist dataset
  let val := val_datalist dataset
  let test := test_datalist dataset
  let nT := numBatches train.length
  let nV := numBatches val.length
  let _nTest := numBatches test.length
  let z := enc ((shuffleT train).take batch_size)
  runAll ops nT nV (initState u o v (scale_factor z))

/-! ## Optimizer parameter set (lines 100-123, 140) -/

/-- The two network objects instantiated by the script. -/
inductive ModelId
  | unet
  | vae
deriving DecidableEq

/-- The parameter tensors of the U-net (lines 114-122), as abstract
identifiers tagged with their owning module; `n` is the (unspecified)
number of tensors. -/
def unetParameters (n : ℕ) : List (ModelId × ℕ) :=
  (List.range n).map (fun i => (ModelId.unet, i))

/-- The parameter tensors of the autoencoder (lines 100-107). -/
def autoencoderParameters (m : ℕ) : List (ModelId × ℕ) :=
  (List.range m).map (fun i => (ModelId.vae, i))

/-- `optimizer = torch.optim.Adam(unet.parameters(), lr=1e-4)` (line 140):
the optimizer is constructed over exactly the U-net's parameter list. -/
def optimizerParameters (n : ℕ) : List (ModelId × ℕ) := unetParameters n

/-! ## Intensity transform (lines 61-92) -/

/-- Modelled from the spec (and the MONAI documentation of
`ScaleIntensityRanged`, external library code): map `v` to
`(v - a_min) / (a_max - a_min) * (b_max - b_min) + b_min` and, when
`clip` is set, clamp the result to `[b_min, b_max]`. -/
def scaleIntensityRange (aMin aMax bMin bMax : ℚ) (clip : Bool) (v : ℚ) : ℚ :=
  let scaled := (v - aMin) / (aMax - aMin) * (bMax - bMin) + bMin
  if clip then max bMin (min bMax scaled) else scaled

/-- The per-pixel intensity map of `train_transforms` (line 65):
`a_min=0.0, a_max=255.0, b_min=0.0, b_max=1.0, clip=True`. -/
def train_transform_intensity (v : ℚ) : ℚ := scaleIntensityRange 0 255 0 1 true v

/-- The per-pixel intensity map of `val_transforms` (line 76), declared
with the same parameters. -/
def val_transform_intensity (v : ℚ) : ℚ := scaleIntensityRange 0 255 0 1 true v

/-- The per-pixel intensity map of `test_transforms` (line 87), declared
with the same parameters. -/
def test_transform_intensity (v : ℚ) : ℚ := scaleIntensityRange 0 255 0 1 true v

/-- The transform actually attached to `test_ds` (line 91), which passes
`val_transforms`, not `test_transforms`. -/
def test_ds_transform_intensity (v : ℚ) : ℚ := val_transform_intensity v

/-! ## Noise scheduler and timestep sampling (lines 127, 167-168, 196-199) -/

/-- The beta-schedule names accepted by the scheduler of the external
`generative` package. -/
inductive BetaSchedule
  | linear_beta
  | scaled_linear_beta
  | sigmoid_beta
deriving DecidableEq

/-- The configuration of a DDPM scheduler. -/
structure DDPMSchedulerCfg where
  num_train_timesteps : ℕ
  schedule : BetaSchedule
  beta_start : ℚ
  beta_end : ℚ
deriving DecidableEq

/-- `DDPMScheduler(num_train_timesteps=1000, schedule="linear_beta",
beta_start=0.0001, beta_end=0.02)` (line 127). -/
def scheduler : DDPMSchedulerCfg :=
  { num_train_timesteps := 1000
    schedule := BetaSchedule.linear_beta
    beta_start := 1 / 10000
    beta_end := 2 / 100 }

/-- Modelled from the spec: the "linear_beta" schedule is
`torch.linspace(beta_start, beta_end, num_train_timesteps)` — evenly
spaced betas from `beta_start` to `beta_end` inclusive. -/
def linearBetas (cfg : DDPMSchedulerCfg) (i : ℕ) : ℚ :=
  cfg.beta_start + (cfg.beta_end - cfg.beta_start) * i / ((cfg.num_train_timesteps : ℚ) - 1)

/-- Modelled from the spec (torch documentation): one output of
`torch.randint(low, high, ...)`, as the image of one uniform source
value: `low + src % (high - low)`. -/
def torch_randint_one (low high : ℕ) (src : ℕ) : ℕ := low + src % (high - low)

/-- The timestep draw of lines 168 and 197-199:
`torch.randint(0, inferer.scheduler.num_train_timesteps, (z.shape[0],))`,
one value per sample of the batch. -/
def drawTimesteps (src : ℕ → ℕ) (batchLen : ℕ) : List ℕ :=
  (List.range batchLen).map (fun i => torch_randint_one 0 scheduler.num_train_timesteps (src i))

/-! ## Verification lemmas and claim theorems -/

/-- The binary64 constant for `0.7` is within half an ulp of `7/10` and
has a 53-bit significand, so it is the correctly rounded value. -/
lemma train_split_correctly_rounded :
    2 ^ 52 ≤ train_split.1 ∧ train_split.1 < 2 ^ 53 ∧ train_split.2 = 53 ∧
    dyQ train_split < 7 / 10 ∧ 7 / 10 - dyQ train_split < 1 / 2 ^ 54 := by
  refine ⟨by norm_num [train_split], by norm_num [train_split], rfl, ?_, ?_⟩ <;>
    · rw [show dyQ train_split = 6305039478318694 / 2 ^ 53 by rfl]
      norm_num

/-- The binary64 constant for `0.2` is within half an ulp of `2/10` and
has a 53-bit significand, so it is the correctly rounded value. -/
lemma val_split_correctly_rounded :
    2 ^ 52 ≤ val_split.1 ∧ val_split.1 < 2 ^ 53 ∧ val_split.2 = 55 ∧
    7 / 10 < 1 ∧ dyQ val_split - 2 / 10 < 1 / 2 ^ 56 ∧ 2 / 10 < dyQ val_split := by
  refine ⟨by norm_num [val_split], by norm_num [val_split], rfl, by norm_num, ?_, ?_⟩ <;>
    · rw [show dyQ val_split = 7205759403792794 / 2 ^ 55 by rfl]
      norm_num

/-- The value of `1 - 0.7 - 0.2` in binary64: slightly above `1/10`. -/
lemma test_split_value : test_split = (3602879701896398, 55) := by rfl

/-- The value of `1 - test_split` in binary64: slightly below `9/10`. -/
lemma one_minus_test_split_value : one_minus_test_split = (8106479329266892, 53) := by rfl

/-- Check `c1Check` on every size in the interval `[lo, lo + n)`, by
binary splitting, so that evaluation recursion stays shallow. -/
def checkRangeAux : ℕ → ℕ → ℕ → Bool
  | 0, lo, n => n == 0 || (n == 1 && c1Check lo)
  | fuel + 1, lo, n =>
    if n ≤ 1 then n == 0 || (n == 1 && c1Check lo)
    else checkRangeAux fuel lo (n / 2) && checkRangeAux fuel (lo + n / 2) (n - n / 2)

lemma checkRangeAux_sound :
    ∀ fuel lo n, checkRangeAux fuel lo n = true → ∀ i, i < n → c1Check (lo + i) = true := by
  intro fuel
  induction fuel with
  | zero =>
    intro lo n h i hi
    simp only [checkRangeAux, Bool.or_eq_true, Bool.and_eq_true, beq_iff_eq] at h
    rcases h with h | ⟨h1, h2⟩
    · omega
    · have : i = 0 := by omega
      subst this
      simpa using h2
  | succ fuel ih =>
    intro lo n h i hi
    by_cases hn : n ≤ 1
    · simp only [checkRangeAux, if_pos hn, Bool.or_eq_true, Bool.and_eq_true, beq_iff_eq] at h
      rcases h with h | ⟨h1, h2⟩
      · omega
      · have : i = 0 := by omega
        subst this
        simpa using h2
    · simp only [checkRangeAux, if_neg hn, Bool.and_eq_true] at h
      by_cases hi2 : i < n / 2
      · exact ih lo (n / 2) h.1 i hi2
      · have h3 := ih (lo + n / 2) (n - n / 2) h.2 (i - n / 2) (by omega)
        rw [show lo + n / 2 + (i - n / 2) = lo + i by omega] at h3
        exact h3

set_option maxRecDepth 4000 in
set_option maxHeartbeats 8000000 in
/-- The slice-boundary facts of `c1Check` hold for every dataset size up
to the cap of `4000` (kernel computation over all sizes). -/
lemma c1Check_upTo : ∀ N, N ≤ 4000 → c1Check N = true := by
  have h : checkRangeAux 13 0 4001 = true := by rfl
  intro N hN
  have h2 := checkRangeAux_sound 13 0 4001 h N (by omega)
  simpa using h2

/-- Claim C1.  The claim as frozen fails on the code: at dataset size
`N = 10` the product `10 * (1 - test_split)` rounds to exactly `9.0`, so
the validation slice `[7:10]` and the test slice `[9:]` share the element
at index `9`, and the three sizes sum to `11`, not `10`.  This closed
computation exhibits the failure. -/
theorem C1_split_counterexample :
    train_datalist (List.range 10) = [0, 1, 2, 3, 4, 5, 6] ∧
    val_datalist (List.range 10) = [7, 8, 9] ∧
    test_datalist (List.range 10) = [9] ∧
    ¬ List.Disjoint (val_datalist (List.range 10)) (test_datalist (List.range 10)) ∧
    (train_datalist (List.range 10)).length + (val_datalist (List.range 10)).length +
      (test_datalist (List.range 10)).length = 11 :=
  ⟨by decide, by decide, by decide,
   fun h => h (a := 9) (by decide) (by decide), by decide⟩

/-- Claim C1, amended.  For every dataset of distinct file entries with
size `N` at most the cap of `4000`, except the sizes `1 ≤ N ≤ 9` (where
the test slice is the whole dataset) and the `63` multiples of ten
flagged by `splitBad` (where validation and test overlap in one
element), the three partition lists produced by lines 54-56 are pairwise
disjoint, their sizes sum to `N`, and each size is within one element
(train, test) or two elements (validation) of the 70/20/10 proportions. -/
theorem C1_split_partition {α : Type} (l : List α) (hnd : l.Nodup)
    (hlen : l.length ≤ 4000) (hgood : splitBad l.length = false) :
    (List.Disjoint (train_datalist l) (val_datalist l) ∧
     List.Disjoint (train_datalist l) (test_datalist l) ∧
     List.Disjoint (val_datalist l) (test_datalist l)) ∧
    (train_datalist l).length + (val_datalist l).length + (test_datalist l).length
      = l.length ∧
    (10 * (train_datalist l).length ≤ 7 * l.length + 10 ∧
     7 * l.length ≤ 10 * (train_datalist l).length + 10) ∧
    (10 * (val_datalist l).length ≤ 2 * l.length + 20 ∧
     2 * l.length ≤ 10 * (val_datalist l).length + 20) ∧
    (10 * (test_datalist l).length ≤ l.length + 10 ∧
     l.length ≤ 10 * (test_datalist l).length + 10) := by
  have hc := c1Check_upTo l.length hlen
  rw [c1Check, hgood, if_neg (by simp)] at hc
  simp only [Bool.or_eq_true, Bool.and_eq_true, beq_iff_eq, decide_eq_true_eq] at hc
  rcases hc with h0 | ⟨hk1, hkN, hab, hb, hta1, hta2, htv1, htv2, htk1, htk2⟩
  · -- the empty dataset: every slice is empty
    have hl : l = [] := List.length_eq_zero.mp h0
    subst hl
    simp only [train_datalist, val_datalist, test_datalist] at *
    simp [List.Disjoint]
  · -- the generic case: the arithmetic facts established by `c1Check`
    set N := l.length with hN
    set a := aIdx N with ha
    set b := bIdx N with hbdef
    set k := kLen N with hk
    have hkne : k ≠ 0 := by omega
    have haN : a ≤ N := by omega
    have hbN : b ≤ N := by omega
    -- identify the three lists as take/drop at the indices a and b
    have htrain : train_datalist l = l.take a := rfl
    have hlentrain : (train_datalist l).length = a := by
      rw [htrain, List.length_take]
      omega
    have hval : val_datalist l = (l.take b).drop a := by
      rw [val_datalist, hlentrain]
    have htest : test_datalist l = l.drop b := by
      rw [test_datalist, if_neg hkne, hb]
    have hvalsub : val_datalist l ⊆ l.drop a := by
      rw [hval, List.drop_take]
      exact List.take_subset _ _
    have hvalsub2 : val_datalist l ⊆ l.take b := by
      rw [hval]
      exact List.drop_subset _ _
    have hlenval : (val_datalist l).length = b - a := by
      rw [hval, List.length_drop, List.length_take]
      omega
    have hlentest : (test_datalist l).length = N - b := by
      rw [htest, List.length_drop]
    refine ⟨⟨?_, ?_, ?_⟩, by omega, by omega, by omega, by omega⟩
    · intro x hx hy
      exact List.disjoint_take_drop hnd (le_refl a) (htrain ▸ hx) (hvalsub hy)
    · intro x hx hy
      exact List.disjoint_take_drop hnd hab (htrain ▸ hx) (htest ▸ hy)
    · intro x hx hy
      exact List.disjoint_take_drop hnd (le_refl b) (hvalsub2 hx) (htest ▸ hy)

/-- Witness for the amended claim C1 at the concrete dataset size `11`. -/
theorem C1_split_partition_witness :
    ((List.range 11).Nodup ∧ (List.range 11).length ≤ 4000 ∧
      splitBad (List.range 11).length = false) ∧
    (List.Disjoint (train_datalist (List.range 11)) (val_datalist (List.range 11)) ∧
     List.Disjoint (train_datalist (List.range 11)) (test_datalist (List.range 11)) ∧
     List.Disjoint (val_datalist (List.range 11)) (test_datalist (List.range 11))) ∧
    (train_datalist (List.range 11)).length + (val_datalist (List.range 11)).length +
      (test_datalist (List.range 11)).length = (List.range 11).length :=
  ⟨⟨by decide, by decide, by decide⟩,
   (C1_split_partition (List.range 11) (by decide) (by decide) (by decide)).1,
   (C1_split_partition (List.range 11) (by decide) (by decide) (by decide)).2.1⟩

/-! ## Lemmas about the loop model -/

lemma trainPhase_succ {θ σ φ : Type} (ops : MLOps θ σ) (e n : ℕ) (s : LoopState θ σ φ) :
    trainPhase ops e (n + 1) s =
      ({ (trainPhase ops e n s).1 with
          unet := (ops.optStep (trainPhase ops e n s).1.unet (trainPhase ops e n s).1.opt e n).1
          opt := (ops.optStep (trainPhase ops e n s).1.unet (trainPhase ops e n s).1.opt e n).2
          stepVar := some n },
        (trainPhase ops e n s).2 + ops.trainLossVal e n) := by
  unfold trainPhase
  rw [List.range_succ, List.foldl_append]
  rfl

lemma trainPhase_frame {θ σ φ : Type} (ops : MLOps θ σ) (e : ℕ) :
    ∀ (n : ℕ) (s : LoopState θ σ φ),
      (trainPhase ops e n s).1.vae = s.vae ∧
      (trainPhase ops e n s).1.scaleF = s.scaleF ∧
      (trainPhase ops e n s).1.epochLosses = s.epochLosses ∧
      (trainPhase ops e n s).1.valLosses = s.valLosses ∧
      (trainPhase ops e n s).1.savedCkpts = s.savedCkpts ∧
      (trainPhase ops e n s).1.console = s.console ∧
      (trainPhase ops e n s).1.valStepVar = s.valStepVar := by
  intro n
  induction n with
  | zero => intro s; exact ⟨rfl, rfl, rfl, rfl, rfl, rfl, rfl⟩
  | succ n ih =>
    intro s
    obtain ⟨h1, h2, h3, h4, h5, h6, h7⟩ := ih s
    rw [trainPhase_succ]
    exact ⟨h1, h2, h3, h4, h5, h6, h7⟩

lemma trainPhase_stepVar {θ σ φ : Type} (ops : MLOps θ σ) (e n : ℕ) (s : LoopState θ σ φ)
    (h : 1 ≤ n) : (trainPhase ops e n s).1.stepVar = some (n - 1) := by
  obtain ⟨m, rfl⟩ : ∃ m, n = m + 1 := ⟨n - 1, by omega⟩
  rw [trainPhase_succ]
  rfl

lemma valLoop_eq {θ σ : Type} (ops : MLOps θ σ) (e : ℕ) :
    ∀ (n : ℕ) (vs0 : Option ℕ),
      valLoop ops e n vs0 =
        (((List.range n).map (fun i => ops.valLossVal e (i + 1))).sum,
          if n = 0 then vs0 else some n) := by
  intro n
  induction n with
  | zero => intro vs0; simp [valLoop]
  | succ n ih =>
    intro vs0
    have h1 : valLoop ops e (n + 1) vs0
        = ((valLoop ops e n vs0).1 + ops.valLossVal e (n + 1), some (n + 1)) := by
      unfold valLoop
      rw [List.range_succ, List.foldl_append]
      rfl
    rw [h1, ih]
    simp [List.range_succ]

lemma saveStep_frame {θ σ φ : Type} (e : ℕ) (s : LoopState θ σ φ) :
    (saveStep e s).unet = s.unet ∧ (saveStep e s).opt = s.opt ∧ (saveStep e s).vae = s.vae ∧
    (saveStep e s).scaleF = s.scaleF ∧ (saveStep e s).epochLosses = s.epochLosses ∧
    (saveStep e s).valLosses = s.valLosses ∧ (saveStep e s).console = s.console ∧
    (saveStep e s).valStepVar = s.valStepVar := by
  unfold saveStep
  split <;> exact ⟨rfl, rfl, rfl, rfl, rfl, rfl, rfl, rfl⟩

lemma saveStep_savedCkpts_map {θ σ φ : Type} (e : ℕ) (s : LoopState θ σ φ) :
    (saveStep e s).savedCkpts.map (fun c => c.1)
      = s.savedCkpts.map (fun c => c.1) ++ (if (e + 1) % 10 = 0 then [e] else []) := by
  unfold saveStep
  split
  next h => simp [h]
  next h => simp [h]

lemma valStep_ok_frame {θ σ φ : Type} (ops : MLOps θ σ) (nV e : ℕ) (s s' : LoopState θ σ φ)
    (h : valStep ops nV e s = .ok s') :
    s'.unet = s.unet ∧ s'.opt = s.opt ∧ s'.vae = s.vae ∧ s'.scaleF = s.scaleF ∧
    s'.epochLosses = s.epochLosses ∧ s'.savedCkpts = s.savedCkpts := by
  unfold valStep at h
  split at h
  · split at h
    · exact absurd h (by simp)
    · injection h with h
      subst h
      exact ⟨rfl, rfl, rfl, rfl, rfl, rfl⟩
  · injection h with h
    subst h
    exact ⟨rfl, rfl, rfl, rfl, rfl, rfl⟩

lemma valStep_noval {θ σ φ : Type} (ops : MLOps θ σ) (nV e : ℕ) (s : LoopState θ σ φ)
    (h5 : (e + 1) % val_interval ≠ 0) : valStep ops nV e s = .ok s := by
  unfold valStep
  rw [if_neg h5]

lemma valStep_val_ok {θ σ φ : Type} (ops : MLOps θ σ) (nV e : ℕ) (s : LoopState θ σ φ)
    (h5 : (e + 1) % val_interval = 0) (hV : 1 ≤ nV) :
    valStep ops nV e s = .ok { s with
      valStepVar := some nV
      valLosses := s.valLosses ++
        [((List.range nV).map (fun i => ops.valLossVal e (i + 1))).sum / (nV : ℚ)]
      console := s.console ++
        [(e, ((List.range nV).map (fun i => ops.valLossVal e (i + 1))).sum / (nV : ℚ))] } := by
  unfold valStep
  rw [if_pos h5, valLoop_eq, if_neg (by omega : ¬ nV = 0)]

lemma valStep_val_err {θ σ φ : Type} (ops : MLOps θ σ) (e : ℕ) (s : LoopState θ σ φ)
    (h5 : (e + 1) % val_interval = 0) (hvs : s.valStepVar = none) :
    valStep ops 0 e s = .error "NameError: val_step" := by
  unfold valStep
  rw [if_pos h5, valLoop_eq, if_pos rfl, hvs]

lemma epochRun_eq {θ σ φ : Type} (ops : MLOps θ σ) (nT nV e : ℕ) (hT : 1 ≤ nT)
    (s : LoopState θ σ φ) :
    epochRun ops nT nV e s =
      valStep ops nV e (saveStep e
        { (trainPhase ops e nT s).1 with
            epochLosses := (trainPhase ops e nT s).1.epochLosses ++
              [(trainPhase ops e nT s).2 / (((nT - 1 : ℕ) : ℚ) + 1)] }) := by
  simp only [epochRun]
  rw [trainPhase_stepVar ops e nT s hT]

lemma epochRun_preserve {θ σ φ : Type} (ops : MLOps θ σ) (nT nV e : ℕ)
    (s s' : LoopState θ σ φ) (h : epochRun ops nT nV e s = .ok s') :
    s'.vae = s.vae ∧ s'.scaleF = s.scaleF := by
  obtain ⟨f1, f2, f3, f4, f5, f6, f7⟩ := trainPhase_frame ops e nT s
  simp only [epochRun] at h
  rcases hsv : (trainPhase ops e nT s).1.stepVar with _ | st
  · rw [hsv] at h
    exact absurd h (by simp)
  · rw [hsv] at h
    simp only at h
    have hv := valStep_ok_frame _ _ _ _ _ h
    exact ⟨(hv.2.2.1).trans (((saveStep_frame e _).2.2.1).trans f1),
           (hv.2.2.2.1).trans (((saveStep_frame e _).2.2.2.1).trans f2)⟩

lemma epochRun_ok_char {θ σ φ : Type} (ops : MLOps θ σ) (nT nV e : ℕ) (hT : 1 ≤ nT)
    (hV : 1 ≤ nV) (s : LoopState θ σ φ) :
    ∃ s', epochRun ops nT nV e s = .ok s' ∧
      s'.savedCkpts.map (fun c => c.1)
        = s.savedCkpts.map (fun c => c.1) ++ (if (e + 1) % 10 = 0 then [e] else []) ∧
      s'.console.map (fun c => c.1)
        = s.console.map (fun c => c.1) ++ (if (e + 1) % val_interval = 0 then [e] else []) ∧
      s'.epochLosses.length = s.epochLosses.length + 1 := by
  obtain ⟨f1, f2, f3, f4, f5, f6, f7⟩ := trainPhase_frame ops e nT s
  rw [epochRun_eq ops nT nV e hT s]
  set s₂ : LoopState θ σ φ :=
    { (trainPhase ops e nT s).1 with
        epochLosses := (trainPhase ops e nT s).1.epochLosses ++
          [(trainPhase ops e nT s).2 / (((nT - 1 : ℕ) : ℚ) + 1)] } with hs₂
  have hsc : (saveStep e s₂).savedCkpts.map (fun c => c.1)
      = s.savedCkpts.map (fun c => c.1) ++ (if (e + 1) % 10 = 0 then [e] else []) := by
    rw [saveStep_savedCkpts_map]
    have : s₂.savedCkpts = s.savedCkpts := f5
    rw [this]
  obtain ⟨q1, q2, q3, q4, q5, q6, q7, q8⟩ := saveStep_frame e s₂
  have hco : (saveStep e s₂).console = s.console := by rw [q7]; exact f6
  have hel : (saveStep e s₂).epochLosses.length = s.epochLosses.length + 1 := by
    rw [q5]
    show ((trainPhase ops e nT s).1.epochLosses ++ _).length = _
    rw [List.length_append, f3]
    rfl
  by_cases h5 : (e + 1) % val_interval = 0
  · rw [valStep_val_ok ops nV e _ h5 hV]
    refine ⟨_, rfl, hsc, ?_, hel⟩
    show ((saveStep e s₂).console ++ _).map (fun c => c.1) = _
    rw [List.map_append, hco, if_pos h5]
    rfl
  · rw [valStep_noval ops nV e _ h5]
    refine ⟨_, rfl, hsc, ?_, hel⟩
    rw [hco, if_neg h5]
    simp

lemma runEpochs_zero {θ σ φ : Type} (ops : MLOps θ σ) (nT nV start : ℕ)
    (s : LoopState θ σ φ) : runEpochs ops nT nV start 0 s = .ok s := rfl

lemma foldlM_except_append {α β : Type} (f : β → α → Except String β) :
    ∀ (l₁ l₂ : List α) (b : β),
      (l₁ ++ l₂).foldlM f b = (l₁.foldlM f b).bind (fun x => l₂.foldlM f x) := by
  intro l₁
  induction l₁ with
  | nil => intro l₂ b; rfl
  | cons a t ih =>
    intro l₂ b
    rcases hfa : f b a with e | b'
    · simp only [List.cons_append, List.foldlM_cons, hfa]
      rfl
    · simp only [List.cons_append, List.foldlM_cons, hfa]
      exact ih l₂ b'

lemma runEpochs_succ {θ σ φ : Type} (ops : MLOps θ σ) (nT nV start len : ℕ)
    (s : LoopState θ σ φ) :
    runEpochs ops nT nV start (len + 1) s =
      (runEpochs ops nT nV start len s).bind (fun s1 => epochRun ops nT nV (start + len) s1) := by
  unfold runEpochs
  rw [show List.range' start (len + 1) = List.range' start len ++ List.range' (start + len) 1
        from by rw [List.range'_append_1, Nat.add_comm],
      foldlM_except_append]
  congr 1
  funext s1
  show (epochRun ops nT nV (start + len) s1).bind pure = epochRun ops nT nV (start + len) s1
  rcases epochRun ops nT nV (start + len) s1 with e | s2 <;> rfl

lemma runEpochs_add {θ σ φ : Type} (ops : MLOps θ σ) (nT nV start a b : ℕ)
    (s : LoopState θ σ φ) :
    runEpochs ops nT nV start (a + b) s =
      (runEpochs ops nT nV start a s).bind (fun s1 => runEpochs ops nT nV (start + a) b s1) := by
  unfold runEpochs
  rw [show List.range' start (a + b) = List.range' start a ++ List.range' (start + a) b
        from by rw [List.range'_append_1, Nat.add_comm],
      foldlM_except_append]

lemma runEpochs_preserve {θ σ φ : Type} (ops : MLOps θ σ) (nT nV : ℕ) :
    ∀ (len start : ℕ) (s s' : LoopState θ σ φ),
      runEpochs ops nT nV start len s = .ok s' → s'.vae = s.vae ∧ s'.scaleF = s.scaleF := by
  intro len
  induction len with
  | zero =>
    intro start s s' h
    rw [runEpochs_zero] at h
    injection h with h
    subst h
    exact ⟨rfl, rfl⟩
  | succ len ih =>
    intro start s s' h
    rw [runEpochs_succ] at h
    rcases hmid : runEpochs ops nT nV start len s with e | s1
    · rw [hmid] at h
      exact absurd h (by simp [Except.bind])
    · rw [hmid] at h
      have h2 : epochRun ops nT nV (start + len) s1 = .ok s' := h
      obtain ⟨i1, i2⟩ := ih start s s1 hmid
      obtain ⟨j1, j2⟩ := epochRun_preserve ops nT nV (start + len) s1 s' h2
      exact ⟨j1.trans i1, j2.trans i2⟩

lemma runEpochs_char {θ σ φ : Type} (ops : MLOps θ σ) (nT nV : ℕ) (hT : 1 ≤ nT)
    (hV : 1 ≤ nV) :
    ∀ (len start : ℕ) (s : LoopState θ σ φ),
      ∃ s', runEpochs ops nT nV start len s = .ok s' ∧
        s'.savedCkpts.map (fun c => c.1)
          = s.savedCkpts.map (fun c => c.1)
            ++ (List.range' start len).filter (fun e => (e + 1) % 10 = 0) ∧
        s'.console.map (fun c => c.1)
          = s.console.map (fun c => c.1)
            ++ (List.range' start len).filter (fun e => (e + 1) % val_interval = 0) ∧
        s'.epochLosses.length = s.epochLosses.length + len := by
  intro len
  induction len with
  | zero =>
    intro start s
    exact ⟨s, rfl, by simp, by simp, rfl⟩
  | succ len ih =>
    intro start s
    obtain ⟨s1, h1, h2, h3, h4⟩ := ih start s
    obtain ⟨s2, g1, g2, g3, g4⟩ := epochRun_ok_char ops nT nV (start + len) hT hV s1
    have hr : List.range' start (len + 1) = List.range' start len ++ [start + len] := by
      rw [show [start + len] = List.range' (start + len) 1 from rfl,
        List.range'_append_1, Nat.add_comm]
    have hsplit10 : (List.range' start (len + 1)).filter (fun e => (e + 1) % 10 = 0)
        = (List.range' start len).filter (fun e => (e + 1) % 10 = 0)
          ++ (if (start + len + 1) % 10 = 0 then [start + len] else []) := by
      rw [hr, List.filter_append]
      congr 1
      by_cases h10 : (start + len + 1) % 10 = 0 <;> simp [h10]
    have hsplit5 : (List.range' start (len + 1)).filter (fun e => (e + 1) % val_interval = 0)
        = (List.range' start len).filter (fun e => (e + 1) % val_interval = 0)
          ++ (if (start + len + 1) % val_interval = 0 then [start + len] else []) := by
      rw [hr, List.filter_append]
      congr 1
      by_cases h5 : (start + len + 1) % val_interval = 0 <;> simp [h5]
    refine ⟨s2, ?_, ?_, ?_, ?_⟩
    · rw [runEpochs_succ, h1]
      exact g1
    · rw [g2, h2, hsplit10, List.append_assoc]
    · rw [g3, h3, hsplit5, List.append_assoc]
    · omega

lemma runEpochs_noval {θ σ φ : Type} (ops : MLOps θ σ) (nT nV : ℕ) (hT : 1 ≤ nT) :
    ∀ (len start : ℕ) (s : LoopState θ σ φ),
      (∀ e, start ≤ e → e < start + len → (e + 1) % val_interval ≠ 0) →
      ∃ s', runEpochs ops nT nV start len s = .ok s' ∧ s'.valStepVar = s.valStepVar := by
  intro len
  induction len with
  | zero => intro start s _; exact ⟨s, rfl, rfl⟩
  | succ len ih =>
    intro start s hno
    obtain ⟨s1, h1, h2⟩ := ih start s (fun e he1 he2 => hno e he1 (by omega))
    have h5 : (start + len + 1) % val_interval ≠ 0 := hno (start + len) (by omega) (by omega)
    refine ⟨saveStep (start + len)
        { (trainPhase ops (start + len) nT s1).1 with
            epochLosses := (trainPhase ops (start + len) nT s1).1.epochLosses ++
              [(trainPhase ops (start + len) nT s1).2 / (((nT - 1 : ℕ) : ℚ) + 1)] }, ?_, ?_⟩
    · rw [runEpochs_succ, h1]
      show epochRun ops nT nV (start + len) s1 = _
      rw [epochRun_eq ops nT nV (start + len) hT s1]
      exact valStep_noval _ _ _ _ h5
    · exact ((saveStep_frame _ _).2.2.2.2.2.2.2).trans
        ((((trainPhase_frame ops (start + len) nT s1).2.2.2.2.2.2)).trans h2)

/-- Claim C3.  With at least one train batch and one validation batch, the
whole run of 200 epochs succeeds, and a checkpoint for epoch `e` is
written exactly when `(e + 1) % 10 = 0` while a validation line for
epoch `e` is printed exactly when `(e + 1) % val_interval = 0`, with
`val_interval = 5`; no other condition triggers either branch. -/
theorem C3_checkpoint_validation_schedule {θ σ φ : Type} (ops : MLOps θ σ) (nT nV : ℕ)
    (u : θ) (o : σ) (v : φ) (sf : ℝ) (hT : 1 ≤ nT) (hV : 1 ≤ nV) :
    val_interval = 5 ∧
    ∃ s, runAll ops nT nV (initState u o v sf) = .ok s ∧
      (∀ e, e ∈ s.savedCkpts.map (fun c => c.1) ↔ e < n_epochs ∧ (e + 1) % 10 = 0) ∧
      (∀ e, e ∈ s.console.map (fun c => c.1) ↔ e < n_epochs ∧ (e + 1) % val_interval = 0) := by
  obtain ⟨s, h1, h2, h3, _⟩ := runEpochs_char ops nT nV hT hV n_epochs 0 (initState u o v sf)
  refine ⟨rfl, s, h1, ?_, ?_⟩
  · intro e
    rw [h2]
    simp only [initState, List.map_nil, List.nil_append, List.mem_filter,
      List.mem_range'_1, decide_eq_true_eq]
    omega
  · intro e
    rw [h3]
    simp only [initState, List.map_nil, List.nil_append, List.mem_filter,
      List.mem_range'_1, decide_eq_true_eq]
    omega

/-- Witness for claim C3 at one train batch and one validation batch. -/
theorem C3_checkpoint_validation_schedule_witness :
    val_interval = 5 ∧
    ∃ s, runAll opsUnit 1 1 (initState () () () 0) = .ok s ∧
      (∀ e, e ∈ s.savedCkpts.map (fun c => c.1) ↔ e < n_epochs ∧ (e + 1) % 10 = 0) ∧
      (∀ e, e ∈ s.console.map (fun c => c.1) ↔ e < n_epochs ∧ (e + 1) % val_interval = 0) :=
  C3_checkpoint_validation_schedule opsUnit 1 1 () () () 0 (le_refl 1) (le_refl 1)

/-- Claim C9.  A loader yields zero batches exactly for the empty list;
with zero train batches the run stops with `NameError: step` at the
first epoch-end average; with train batches but zero validation batches
it stops with `NameError: val_step` at the first validation epoch; with
at least one batch in each loader the whole run succeeds and records a
loss for every epoch. -/
theorem C9_zero_batch_name_errors :
    (∀ n : ℕ, numBatches n = 0 ↔ n = 0) ∧
    (∀ (θ σ φ : Type) (ops : MLOps θ σ) (nV : ℕ) (u : θ) (o : σ) (v : φ) (sf : ℝ),
      runAll ops 0 nV (initState u o v sf) = .error "NameError: step") ∧
    (∀ (θ σ φ : Type) (ops : MLOps θ σ) (nT : ℕ) (u : θ) (o : σ) (v : φ) (sf : ℝ),
      1 ≤ nT → runAll ops nT 0 (initState u o v sf) = .error "NameError: val_step") ∧
    (∀ (θ σ φ : Type) (ops : MLOps θ σ) (nT nV : ℕ) (u : θ) (o : σ) (v : φ) (sf : ℝ),
      1 ≤ nT → 1 ≤ nV →
      ∃ s, runAll ops nT nV (initState u o v sf) = .ok s ∧
        s.epochLosses.length = n_epochs) := by
  refine ⟨?_, ?_, ?_, ?_⟩
  · intro n
    unfold numBatches batch_size
    omega
  · intro θ σ φ ops nV u o v sf
    rfl
  · intro θ σ φ ops nT u o v sf hT
    obtain ⟨s4, h4, hvs⟩ := runEpochs_noval ops nT 0 hT 4 0 (initState u o v sf)
      (by intro e he1 he2; simp only [val_interval]; omega)
    have h5 : runEpochs ops nT 0 0 5 (initState u o v sf) = .error "NameError: val_step" := by
      rw [show (5 : ℕ) = 4 + 1 from rfl, runEpochs_succ, h4]
      show epochRun ops nT 0 (0 + 4) s4 = _
      rw [epochRun_eq ops nT 0 (0 + 4) hT s4]
      exact valStep_val_err ops (0 + 4) _ rfl
        (((saveStep_frame _ _).2.2.2.2.2.2.2).trans
          ((((trainPhase_frame ops (0 + 4) nT s4).2.2.2.2.2.2)).trans hvs))
    show runEpochs ops nT 0 0 n_epochs (initState u o v sf) = _
    rw [show n_epochs = 5 + 195 from rfl, runEpochs_add, h5]
    rfl
  · intro θ σ φ ops nT nV u o v sf hT hV
    obtain ⟨s, h, _, _, hlen⟩ := runEpochs_char ops nT nV hT hV n_epochs 0 (initState u o v sf)
    exact ⟨s, h, by simpa using hlen⟩

/-- Witness for claim C9: the three run shapes at concrete batch counts,
with the empty-dataset batch count evaluated. -/
theorem C9_zero_batch_name_errors_witness :
    numBatches 0 = 0 ∧
    runAll opsUnit 0 1 (initState () () () 0) = .error "NameError: step" ∧
    runAll opsUnit 1 0 (initState () () () 0) = .error "NameError: val_step" ∧
    ∃ s, runAll opsUnit 1 1 (initState () () () 0) = .ok s ∧
      s.epochLosses.length = n_epochs :=
  ⟨(C9_zero_batch_name_errors.1 0).mpr rfl,
   C9_zero_batch_name_errors.2.1 Unit Unit Unit opsUnit 1 () () () 0,
   C9_zero_batch_name_errors.2.2.1 Unit Unit Unit opsUnit 1 () () () 0 (le_refl 1),
   C9_zero_batch_name_errors.2.2.2 Unit Unit Unit opsUnit 1 1 () () () 0 (le_refl 1) (le_refl 1)⟩

lemma epochRun_some {θ σ φ : Type} (ops : MLOps θ σ) (nT nV e : ℕ) (s : LoopState θ σ φ)
    (st : ℕ) (hsv : (trainPhase ops e nT s).1.stepVar = some st) :
    epochRun ops nT nV e s =
      valStep ops nV e (saveStep e
        { (trainPhase ops e nT s).1 with
            epochLosses := (trainPhase ops e nT s).1.epochLosses ++
              [(trainPhase ops e nT s).2 / ((st : ℚ) + 1)] }) := by
  simp only [epochRun]
  rw [hsv]

/-- Claim C4.  The optimizer of line 140 is built over exactly the
U-net's parameters, no autoencoder parameter is in its parameter set,
and the autoencoder loaded into the initial state is bit-for-bit the
one present after any number of epochs of the loop. -/
theorem C4_frozen_autoencoder (n m : ℕ) :
    optimizerParameters n = unetParameters n ∧
    (∀ p, p ∈ autoencoderParameters m → p ∉ optimizerParameters n) ∧
    (∀ (θ σ φ : Type) (ops : MLOps θ σ) (nT nV len : ℕ) (u : θ) (o : σ) (v : φ) (sf : ℝ)
        (s' : LoopState θ σ φ),
      runEpochs ops nT nV 0 len (initState u o v sf) = .ok s' → s'.vae = v) := by
  refine ⟨rfl, ?_, ?_⟩
  · intro p hp hopt
    simp only [autoencoderParameters, List.mem_map] at hp
    simp only [optimizerParameters, unetParameters, List.mem_map] at hopt
    obtain ⟨i, _, hip⟩ := hp
    obtain ⟨j, _, hjp⟩ := hopt
    have hc : (ModelId.vae, i) = ((ModelId.unet, j) : ModelId × ℕ) := hip.trans hjp.symm
    exact ModelId.noConfusion (congrArg Prod.fst hc)
  · intro θ σ φ ops nT nV len u o v sf s' h
    exact (runEpochs_preserve ops nT nV len 0 _ _ h).1

/-- Witness for claim C4 at concrete parameter counts and a zero-length run. -/
theorem C4_frozen_autoencoder_witness :
    optimizerParameters 3 = unetParameters 3 ∧
    (ModelId.vae, 0) ∈ autoencoderParameters 2 ∧
    (ModelId.vae, 0) ∉ optimizerParameters 3 ∧
    runEpochs opsUnit 1 1 0 0 (initState () () (7 : ℕ) 0) = .ok (initState () () (7 : ℕ) 0) ∧
    (initState () () (7 : ℕ) (0 : ℝ)).vae = 7 :=
  ⟨(C4_frozen_autoencoder 3 2).1, by decide,
   (C4_frozen_autoencoder 3 2).2.1 (ModelId.vae, 0) (by decide), rfl,
   (C4_frozen_autoencoder 3 2).2.2 Unit Unit ℕ opsUnit 1 1 0 () () 7 0 (initState () () 7 0) rfl⟩

/-- Claim C5.  `scale_factor` is exactly the reciprocal of the sample
standard deviation of the latent entries; the program computes it once,
before the loop, from the single first shuffled train batch; and the
loop never changes it: after any number of epochs the stored scale
factor is still the initial one. -/
theorem C5_scale_factor_once (z : List ℝ) :
    scale_factor z = 1 / spec_sample_std z ∧
    (∀ (α θ σ φ : Type) (shuffleT : List α → List α) (enc : List α → List ℝ)
        (ops : MLOps θ σ) (u : θ) (o : σ) (v : φ) (listdir : List α),
      program shuffleT enc ops u o v listdir =
        runAll ops (numBatches (train_datalist (listdir.take 4000)).length)
          (numBatches (val_datalist (listdir.take 4000)).length)
          (initState u o v
            (scale_factor (enc ((shuffleT (train_datalist (listdir.take 4000))).take batch_size))))) ∧
    (∀ (θ σ φ : Type) (ops : MLOps θ σ) (nT nV len : ℕ) (u : θ) (o : σ) (v : φ)
        (s' : LoopState θ σ φ),
      runEpochs ops nT nV 0 len (initState u o v (scale_factor z)) = .ok s' →
        s'.scaleF = scale_factor z) := by
  refine ⟨rfl, ?_, ?_⟩
  · intro α θ σ φ shuffleT enc ops u o v listdir
    rfl
  · intro θ σ φ ops nT nV len u o v s' h
    exact (runEpochs_preserve ops nT nV len 0 _ _ h).2

/-- Witness for claim C5 at the empty latent batch and a zero-length run. -/
theorem C5_scale_factor_once_witness :
    scale_factor [] = 1 / spec_sample_std [] ∧
    runEpochs opsUnit 1 1 0 0 (initState () () () (scale_factor [])) =
      .ok (initState () () () (scale_factor [])) ∧
    (initState () () () (scale_factor [])).scaleF = scale_factor [] :=
  ⟨(C5_scale_factor_once []).1, rfl,
   (C5_scale_factor_once []).2.2 Unit Unit Unit opsUnit 1 1 0 () () ()
     (initState () () () (scale_factor [])) rfl⟩

/-- Claim C8.  Whatever one epoch does after its batch loop — the
checkpoint branch and the validation pass — leaves the U-net parameters
and the optimizer state exactly as the batch loop left them, and when
the validation pass runs (every `val_interval` epochs, with at least one
validation batch) the recorded validation loss is the sum of the
per-batch losses divided by the number of validation batches. -/
theorem C8_validation_no_update {θ σ φ : Type} (ops : MLOps θ σ) (nT nV e : ℕ)
    (s s' : LoopState θ σ φ) (h : epochRun ops nT nV e s = .ok s') :
    s'.unet = (trainPhase ops e nT s).1.unet ∧
    s'.opt = (trainPhase ops e nT s).1.opt ∧
    ((e + 1) % val_interval = 0 → 1 ≤ nV →
      s'.valLosses = s.valLosses ++
        [((List.range nV).map (fun i => ops.valLossVal e (i + 1))).sum / (nV : ℚ)]) := by
  rcases hsv : (trainPhase ops e nT s).1.stepVar with _ | st
  · simp only [epochRun] at h
    rw [hsv] at h
    exact absurd h (by simp)
  · rw [epochRun_some ops nT nV e s st hsv] at h
    set X : LoopState θ σ φ :=
      { (trainPhase ops e nT s).1 with
          epochLosses := (trainPhase ops e nT s).1.epochLosses ++
            [(trainPhase ops e nT s).2 / ((st : ℚ) + 1)] } with hX
    have hv := valStep_ok_frame _ _ _ _ _ h
    refine ⟨hv.1.trans ((saveStep_frame e X).1), hv.2.1.trans ((saveStep_frame e X).2.1), ?_⟩
    intro h5 hV
    have h2 := (valStep_val_ok ops nV e (saveStep e X) h5 hV).symm.trans h
    injection h2 with h2
    rw [← h2]
    show (saveStep e X).valLosses ++ _ = _
    rw [((saveStep_frame e X).2.2.2.2.2.1).trans ((trainPhase_frame ops e nT s).2.2.2.1)]

/-- Witness for claim C8 at epoch `4` of the trivial oracle. -/
theorem C8_validation_no_update_witness :
    (4 + 1) % val_interval = 0 ∧ 1 ≤ 1 ∧
    ∃ s', epochRun opsUnit 1 1 4 (initState () () () 0) = .ok s' ∧
      s'.unet = (trainPhase opsUnit 4 1 (initState () () () 0)).1.unet ∧
      s'.opt = (trainPhase opsUnit 4 1 (initState () () () 0)).1.opt ∧
      s'.valLosses = (initState () () () (0 : ℝ)).valLosses ++
        [((List.range 1).map (fun i => opsUnit.valLossVal 4 (i + 1))).sum / ((1 : ℕ) : ℚ)] := by
  refine ⟨rfl, le_refl 1, ?_⟩
  have hsv : (trainPhase opsUnit 4 1 (initState () () () 0)).1.stepVar = some 0 := rfl
  have h := epochRun_some opsUnit 1 1 4 (initState () () () 0) 0 hsv
  rw [valStep_val_ok opsUnit 1 4 _ rfl (le_refl 1)] at h
  obtain ⟨g1, g2, g3⟩ := C8_validation_no_update opsUnit 1 1 4 (initState () () () 0) _ h
  exact ⟨_, h, g1, g2, g3 rfl (le_refl 1)⟩

/-- Claim C10.  The test loader is sized but never consumed: two runs of
the program whose datasets produce the same train and validation lists
— however much their test slices differ — produce identical results
(same epoch losses, validation losses, checkpoints, console lines,
same error or success). -/
theorem C10_test_split_unused {α θ σ φ : Type} (shuffleT : List α → List α)
    (enc : List α → List ℝ) (ops : MLOps θ σ) (u : θ) (o : σ) (v : φ)
    (d₁ d₂ : List α)
    (htrain : train_datalist (d₁.take 4000) = train_datalist (d₂.take 4000))
    (hval : val_datalist (d₁.take 4000) = val_datalist (d₂.take 4000)) :
    program shuffleT enc ops u o v d₁ = program shuffleT enc ops u o v d₂ := by
  simp only [program]
  rw [htrain, hval]

/-- Witness for claim C10: two concrete 20-element datasets agreeing on
train and validation slices but with different test slices. -/
theorem C10_test_split_unused_witness :
    train_datalist ((List.range 20).take 4000)
      = train_datalist ((List.range 19 ++ [99]).take 4000) ∧
    val_datalist ((List.range 20).take 4000)
      = val_datalist ((List.range 19 ++ [99]).take 4000) ∧
    test_datalist ((List.range 20).take 4000)
      ≠ test_datalist ((List.range 19 ++ [99]).take 4000) ∧
    program id (fun _ => []) opsUnit () () () (List.range 20)
      = program id (fun _ => []) opsUnit () () () (List.range 19 ++ [99]) :=
  ⟨by decide, by decide, by decide,
   C10_test_split_unused id (fun _ => []) opsUnit () () () (List.range 20)
     (List.range 19 ++ [99]) (by decide) (by decide)⟩

/-- Claim C2.  The path handed to `torch.save` at the first checkpoint
(epoch index `9`, saved as epoch `10`) is the literal string
`"./trained_unet/ + /unet_epoch_10.pt"`: it embeds the epoch number,
but no completion of `trained_unet_dir` by a slash-free file name
produces it — the string that the claim describes would be
`"./trained_unet/unet_epoch_10.pt"`, and the built path differs from it. -/
theorem C2_checkpoint_path_malformed :
    savePath 9 = "./trained_unet/ + /unet_epoch_10.pt".data ∧
    (¬ ∃ name : List Char, savePath 9 = trained_unet_dir ++ name ∧ '/' ∉ name) ∧
    (∃ pre post : List Char, savePath 9 = pre ++ (Nat.toDigits 10 (9 + 1) ++ post)) ∧
    trained_unet_dir ++ "unet_epoch_10.pt".data = "./trained_unet/unet_epoch_10.pt".data ∧
    savePath 9 ≠ "./trained_unet/unet_epoch_10.pt".data := by
  have h0 : savePath 9 = trained_unet_dir ++ " + /unet_epoch_10.pt".data := by decide
  refine ⟨by decide, ?_, ?_, by decide, by decide⟩
  · rintro ⟨name, h1, h2⟩
    have h3 := List.append_cancel_left (h0.symm.trans h1)
    rw [← h3] at h2
    exact h2 (by decide)
  · exact ⟨trained_unet_dir ++ " + /unet_epoch_".data, ".pt".data, by decide⟩

/-- Claim C6.  At the parameters of lines 65, 76 and 87
(`a_min=0, a_max=255, b_min=0, b_max=1, clip=True`) the intensity map is
exactly `v / 255` clamped to `[0, 1]`: negative inputs go to `0`, inputs
above `255` go to `1`, in-range inputs to `v / 255`; and the maps of the
train, validation and test pipelines — and the one actually attached to
`test_ds` — are one and the same function. -/
theorem C6_intensity_rescale (v : ℚ) :
    train_transform_intensity v = max 0 (min 1 (v / 255)) ∧
    (v < 0 → train_transform_intensity v = 0) ∧
    (255 < v → train_transform_intensity v = 1) ∧
    (0 ≤ v → v ≤ 255 → train_transform_intensity v = v / 255) ∧
    val_transform_intensity v = train_transform_intensity v ∧
    test_transform_intensity v = train_transform_intensity v ∧
    test_ds_transform_intensity v = train_transform_intensity v := by
  have key : train_transform_intensity v = max 0 (min 1 (v / 255)) := by
    unfold train_transform_intensity scaleIntensityRange
    have h : (v - 0) / (255 - 0) * (1 - 0) + 0 = v / 255 := by ring
    simp only [if_true, h]
  refine ⟨key, ?_, ?_, ?_, rfl, rfl, rfl⟩
  · intro hv
    have h1 : v / 255 < 0 := div_neg_of_neg_of_pos hv (by norm_num)
    rw [key, min_eq_right (le_trans h1.le (by norm_num : (0 : ℚ) ≤ 1)), max_eq_left h1.le]
  · intro hv
    have h1 : (1 : ℚ) < v / 255 := (one_lt_div (by norm_num)).mpr hv
    rw [key, min_eq_left h1.le, max_eq_right (by norm_num : (0 : ℚ) ≤ 1)]
  · intro hv1 hv2
    have h1 : v / 255 ≤ 1 := (div_le_one (by norm_num)).mpr hv2
    have h2 : (0 : ℚ) ≤ v / 255 := div_nonneg hv1 (by norm_num)
    rw [key, min_eq_right h1, max_eq_right h2]

/-- Witness for claim C6 at the pixel values `-1`, `300` and `51`. -/
theorem C6_intensity_rescale_witness :
    ((-1 : ℚ) < 0 ∧ train_transform_intensity (-1) = 0) ∧
    ((255 : ℚ) < 300 ∧ train_transform_intensity 300 = 1) ∧
    ((0 : ℚ) ≤ 51 ∧ (51 : ℚ) ≤ 255 ∧ train_transform_intensity 51 = 51 / 255) :=
  ⟨⟨by decide, (C6_intensity_rescale (-1)).2.1 (by decide)⟩,
   ⟨by decide, (C6_intensity_rescale 300).2.2.1 (by decide)⟩,
   ⟨by decide, by decide, (C6_intensity_rescale 51).2.2.2.1 (by decide) (by decide)⟩⟩

lemma range_filter_eq_length (r : ℕ) :
    ∀ b : ℕ, ((List.range b).filter (fun x => x = r)).length = if r < b then 1 else 0 := by
  intro b
  induction b with
  | zero => simp
  | succ b ih =>
    rw [List.range_succ, List.filter_append, List.length_append, ih]
    by_cases hbr : b = r
    · subst hbr
      simp
    · have : (List.filter (fun x => decide (x = r)) [b]).length = 0 := by
        simp [hbr]
      rw [this]
      by_cases hlt : r < b
      · rw [if_pos hlt, if_pos (by omega)]
      · rw [if_neg hlt, if_neg (by omega)]

lemma count_mod_eq (b : ℕ) (_hb : 0 < b) :
    ∀ (m r : ℕ), r < b →
      ((List.range (m * b)).filter (fun s => s % b = r)).length = m := by
  intro m
  induction m with
  | zero => intro r hr; simp
  | succ m ih =>
    intro r hr
    rw [show (m + 1) * b = m * b + b from by ring, List.range_add, List.filter_append,
      List.length_append, ih r hr]
    have h1 : ∀ x ∈ List.range b,
        (decide ((m * b + x) % b = r)) = (decide (x = r)) := by
      intro x hx
      have hxb : x < b := List.mem_range.mp hx
      rw [Nat.add_comm, Nat.add_mul_mod_self_right, Nat.mod_eq_of_lt hxb]
    have h2 : ((List.range b).map (fun x => m * b + x)).filter (fun s => s % b = r)
        = ((List.range b).filter (fun x => x = r)).map (fun x => m * b + x) := by
      rw [List.filter_map]
      congr 1
      exact List.filter_congr h1
    rw [h2, List.length_map, range_filter_eq_length r b, if_pos hr]

/-- Claim C7.  The timestep draw of lines 168 and 197-199 produces
exactly one value per sample of the batch, each in
`[0, num_train_timesteps)`; the scheduler of line 127 is configured with
1000 training timesteps and the linear beta schedule from `1e-4` to
`0.02` (so the betas are evenly spaced between those endpoints); and the
modulo model of `torch.randint` maps a uniform source to a uniform
draw — over any whole number of periods every timestep value has
exactly the same number of preimages. -/
theorem C7_timestep_sampling (src : ℕ → ℕ) (n : ℕ) :
    (drawTimesteps src n).length = n ∧
    (∀ t, t ∈ drawTimesteps src n → t < scheduler.num_train_timesteps) ∧
    scheduler.num_train_timesteps = 1000 ∧
    scheduler.schedule = BetaSchedule.linear_beta ∧
    scheduler.beta_start = 1 / 10000 ∧
    scheduler.beta_end = 2 / 100 ∧
    linearBetas scheduler 0 = 1 / 10000 ∧
    linearBetas scheduler 999 = 2 / 100 ∧
    (∀ i : ℕ, linearBetas scheduler (i + 1) - linearBetas scheduler i
      = (2 / 100 - 1 / 10000) / 999) ∧
    (∀ m t : ℕ, t < 1000 →
      ((List.range (m * 1000)).filter
        (fun sv => torch_randint_one 0 1000 sv = t)).length = m) := by
  refine ⟨by simp [drawTimesteps], ?_, rfl, rfl, rfl, rfl, ?_, ?_, ?_, ?_⟩
  · intro t ht
    simp only [drawTimesteps, List.mem_map, List.mem_range] at ht
    obtain ⟨i, _, hi⟩ := ht
    rw [← hi]
    show 0 + src i % (1000 - 0) < 1000
    have : src i % 1000 < 1000 := Nat.mod_lt _ (by norm_num)
    omega
  · simp only [linearBetas, scheduler]
    norm_num
  · simp only [linearBetas, scheduler]
    norm_num
  · intro i
    simp only [linearBetas, scheduler]
    push_cast
    ring
  · intro m t ht
    have hpred : ∀ x ∈ List.range (m * 1000),
        (decide (torch_randint_one 0 1000 x = t)) = (decide (x % 1000 = t)) := by
      intro x _
      have hx : torch_randint_one 0 1000 x = x % 1000 := by
        simp [torch_randint_one]
      rw [hx]
    rw [List.filter_congr hpred]
    exact count_mod_eq 1000 (by norm_num) m t ht

/-- Witness for claim C7: a concrete source, one batch of 16 timesteps,
one concrete member bound, and the preimage count over one period. -/
theorem C7_timestep_sampling_witness :
    (drawTimesteps (fun i => 1234 + i) 16).length = 16 ∧
    torch_randint_one 0 1000 1234 ∈ drawTimesteps (fun i => 1234 + i) 16 ∧
    torch_randint_one 0 1000 1234 < scheduler.num_train_timesteps ∧
    (7 < 1000 ∧
      ((List.range (1 * 1000)).filter
        (fun sv => torch_randint_one 0 1000 sv = 7)).length = 1) := by
  have h := C7_timestep_sampling (fun i => 1234 + i) 16
  refine ⟨h.1, by decide, h.2.1 (torch_randint_one 0 1000 1234) (by decide), by decide,
    h.2.2.2.2.2.2.2.2.2 1 7 (by decide)⟩
